import Mathlib

/-!
Shallow embedding of the economics teaching-assistant orchestrator:
the course-state store (`src/state/course_state.ts`), the task
classifier and change-log helpers (`src/utils/helpers.ts`), and the
Master TA's plan / delegate / verify steps (`src/agents/master_ta.ts`).

TypeScript strings are Lean `String`s, lecture numbers are `Nat`,
optional fields are `Option`, and the JS `Map` backing the lecture
table is an insertion-ordered association list with JS `Map.set`
semantics. The generative-model backend and the filesystem are
external collaborators: sub-agent results and file-existence queries
enter the embedded functions as parameters.
-/

namespace TA

/-- `Language` from `src/types/index.ts`: `'en' | 'de'`. -/
inductive Language where
  | en
  | de
deriving DecidableEq, Repr

/-- `TaskType` from `src/types/index.ts`. -/
inductive TaskType where
  | latex
  | problemset
  | research
  | rcode
  | mixed
deriving DecidableEq, Repr

/-- Bloom levels of `LearningObjective.level` in `course_state.ts`. -/
inductive ObjectiveLevel where
  | remember
  | understand
  | apply
  | analyze
  | evaluate
  | create
deriving DecidableEq, Repr

/-- `LearningObjective` from `course_state.ts`. -/
structure LearningObjective where
  id : String
  description : String
  level : ObjectiveLevel
  lectureNumber : Option Nat
deriving DecidableEq, Repr

/-- `NotationEntry` from `course_state.ts`. -/
structure NotationEntry where
  symbol : String
  meaning : String
  introducedIn : Nat
  context : Option String
deriving DecidableEq, Repr

/-- `Assumption` from `course_state.ts`; `validTo = none` means still valid. -/
structure Assumption where
  id : String
  description : String
  introducedIn : Nat
  validFrom : Nat
  validTo : Option Nat
deriving DecidableEq, Repr

/-- `LectureMetadata` from `course_state.ts`. -/
structure LectureMetadata where
  number : Nat
  title : String
  objectives : List String
  prerequisites : List String
  notationIntroduced : List String
  assumptionsIntroduced : List String
  files : List String
deriving DecidableEq, Repr

/-- The `CourseState` class fields; `lectures` is the JS `Map` in insertion
order as an association list. -/
structure CourseState where
  courseName : String
  language : Language
  syllabus : String
  learningObjectives : List LearningObjective
  notationRegistry : List NotationEntry
  assumptions : List Assumption
  lectures : List (Nat × LectureMetadata)
deriving DecidableEq, Repr

/-- The `CourseState` constructor: empty collections. -/
def CourseState.new (courseName : String) (language : Language) : CourseState :=
  { courseName := courseName
    language := language
    syllabus := ""
    learningObjectives := []
    notationRegistry := []
    assumptions := []
    lectures := [] }

/-! ### String helpers: JS `String.prototype.includes` on lowered text -/

/-- Character-list version of "pat is an initial segment of l". -/
def startsWithChars : List Char → List Char → Bool
  | _, [] => true
  | [], _ :: _ => false
  | c :: cs, p :: ps => c == p && startsWithChars cs ps

/-- Character-list version of JS `includes`: does `pat` occur inside `l`? -/
def containsAt (pat : List Char) : List Char → Bool
  | [] => pat.isEmpty
  | c :: cs => startsWithChars (c :: cs) pat || containsAt pat cs

/-- JS `haystack.includes(pat)` for strings. -/
def strIncludes (haystack pat : String) : Bool :=
  containsAt pat.data haystack.data

/-- JS `toLowerCase` (on the ASCII range), character by character. -/
def strToLower (s : String) : String :=
  ⟨s.data.map Char.toLower⟩

/-! ### `classifyTask` from `src/utils/helpers.ts` -/

def latexKeywords : List String :=
  ["latex", "slides", "beamer", "compile", "tex", "macro", "polish"]

def problemsetKeywords : List String :=
  ["problem", "exercise", "solution", "homework", "assignment", "quiz"]

def researchKeywords : List String :=
  ["research", "literature", "citation", "bibtex", "paper", "reference", "background"]

def rcodeKeywords : List String :=
  ["r code", "r script", "rstudio", "analysis", "data", "plot", "simulation"]

/-- Does any keyword of the family occur in the (already lowered) text? -/
def familyMatches (lower : String) (family : List String) : Bool :=
  family.any (fun kw => strIncludes lower kw)

/-- `classifyTask` from `helpers.ts`: lowercase, match the four keyword
families, return the unique matching category, `mixed` on zero or
several matches. -/
def classifyTask (taskDescription : String) : TaskType :=
  let lower := strToLower taskDescription
  let mLatex := familyMatches lower latexKeywords
  let mProblemset := familyMatches lower problemsetKeywords
  let mResearch := familyMatches lower researchKeywords
  let mRcode := familyMatches lower rcodeKeywords
  let matchCount := [mLatex, mProblemset, mResearch, mRcode].countP (fun b => b)
  if matchCount == 0 then .mixed
  else if matchCount > 1 then .mixed
  else if mLatex then .latex
  else if mProblemset then .problemset
  else if mResearch then .research
  else .rcode

/-! ### Course-state operations from `src/state/course_state.ts` -/

/-- The in-place update `registerNotation` performs on the first registry
entry whose symbol matches: set `meaning`; set `context` only when the
argument is a truthy (present and non-empty) string. -/
def updateNotationEntry (symbol meaning : String) (context : Option String) :
    List NotationEntry → List NotationEntry
  | [] => []
  | e :: rest =>
    if e.symbol == symbol then
      { e with
        meaning := meaning
        context :=
          match context with
          | some c => if c == "" then e.context else some c
          | none => e.context } :: rest
    else e :: updateNotationEntry symbol meaning context rest

/-- `CourseState.registerNotation`: update the entry found for `symbol`,
else push a fresh entry recording `lectureNumber` as `introducedIn`. -/
def registerNotation (s : CourseState) (symbol meaning : String)
    (lectureNumber : Nat) (context : Option String) : CourseState :=
  if s.notationRegistry.any (fun n => n.symbol == symbol) then
    { s with notationRegistry := updateNotationEntry symbol meaning context s.notationRegistry }
  else
    { s with notationRegistry := s.notationRegistry ++
        [{ symbol := symbol, meaning := meaning, introducedIn := lectureNumber,
           context := context }] }

/-- `CourseState.registerAssumption`: push a new assumption with a sequential
id and return the id alongside the new state. -/
def registerAssumption (s : CourseState) (description : String)
    (introducedIn validFrom : Nat) (validTo : Option Nat) : CourseState × String :=
  let id := "assumption_" ++ toString (s.assumptions.length + 1)
  ({ s with assumptions := s.assumptions ++
      [{ id := id, description := description, introducedIn := introducedIn,
         validFrom := validFrom, validTo := validTo }] }, id)

/-- The spec's range invariant on one assumption: `validFrom ≤ validTo`
whenever `validTo` is present. -/
def rangeOk (a : Assumption) : Bool :=
  match a.validTo with
  | some t => decide (a.validFrom ≤ t)
  | none => true

/-- JS `Map.set` on the insertion-ordered association list: overwrite the
value at an existing key in place, else append the pair. -/
def mapSet (m : List (Nat × LectureMetadata)) (k : Nat) (v : LectureMetadata) :
    List (Nat × LectureMetadata) :=
  if m.any (fun p => p.1 == k) then
    m.map (fun p => if p.1 == k then (k, v) else p)
  else
    m ++ [(k, v)]

/-- `CourseState.updateLecture`: `this.lectures.set(metadata.number, metadata)`. -/
def updateLecture (s : CourseState) (metadata : LectureMetadata) : CourseState :=
  { s with lectures := mapSet s.lectures metadata.number metadata }

/-- First occurrences, in order, of the strings in a list; models the key
insertion order of a JS `Map` (or element order of a JS `Set`) filled by
iterating the list. -/
def firstOccAux (seen : List String) : List String → List String
  | [] => []
  | s :: rest =>
    if seen.contains s then firstOccAux seen rest
    else s :: firstOccAux (s :: seen) rest

def firstOcc (l : List String) : List String :=
  firstOccAux [] l

/-- The distinct meanings recorded for `sym` in the registry, in first-seen
order — the `Set` built by `verifyNotationConsistency` for that symbol. -/
def meaningsOf (registry : List NotationEntry) (sym : String) : List String :=
  firstOcc ((registry.filter (fun e => e.symbol == sym)).map (fun e => e.meaning))

/-- Result record of `verifyNotationConsistency`. -/
structure ConsistencyResult where
  consistent : Bool
  conflicts : List String
deriving DecidableEq, Repr

/-- `CourseState.verifyNotationConsistency`: group the registry by symbol,
emit one conflict line per symbol whose set of meanings has size > 1. -/
def verifyNotationConsistency (s : CourseState) : ConsistencyResult :=
  let conflicts :=
    ((firstOcc (s.notationRegistry.map (fun e => e.symbol))).filter
      (fun sym => (meaningsOf s.notationRegistry sym).length > 1)).map
      (fun sym =>
        "Symbol \"" ++ sym ++ "\" has conflicting meanings: " ++
          String.intercalate ", " (meaningsOf s.notationRegistry sym))
  { consistent := conflicts.length == 0, conflicts := conflicts }

/-- The serialized document produced by `CourseState.toJSON`; `lectures` is
`Array.from(this.lectures.entries())`. -/
structure SavedCourseState where
  courseName : String
  language : Language
  syllabus : String
  learningObjectives : List LearningObjective
  notationRegistry : List NotationEntry
  assumptions : List Assumption
  lectures : List (Nat × LectureMetadata)
deriving DecidableEq, Repr

/-- `CourseState.toJSON` as a map to the serialized document (the JSON
text is a faithful encoding of this record). -/
def toJSON (s : CourseState) : SavedCourseState :=
  { courseName := s.courseName
    language := s.language
    syllabus := s.syllabus
    learningObjectives := s.learningObjectives
    notationRegistry := s.notationRegistry
    assumptions := s.assumptions
    lectures := s.lectures }

/-- `new Map(pairs)`: fold `Map.set` over the serialized entry list. -/
def mapFromPairs (pairs : List (Nat × LectureMetadata)) : List (Nat × LectureMetadata) :=
  pairs.foldl (fun m p => mapSet m p.1 p.2) []

/-- `CourseState.fromJSON`: construct via the constructor, then assign the
stored fields, rebuilding the lecture map with `new Map(data.lectures)`. -/
def fromJSON (d : SavedCourseState) : CourseState :=
  { CourseState.new d.courseName d.language with
    syllabus := d.syllabus
    learningObjectives := d.learningObjectives
    notationRegistry := d.notationRegistry
    assumptions := d.assumptions
    lectures := mapFromPairs d.lectures }

/-! ### Master TA: plan, change log, verify (`src/agents/master_ta.ts`,
`src/utils/helpers.ts`) -/

/-- `SubAgentResult` from `src/types/index.ts`. -/
structure SubAgentResult where
  agentType : String
  success : Bool
  output : String
  files : Option (List String)
  errors : Option (List String)
deriving DecidableEq, Repr

/-- `VerificationResult` from `src/types/index.ts`. -/
structure VerificationResult where
  passed : Bool
  issues : List String
  warnings : List String
deriving DecidableEq, Repr

/-- `ChangeLogEntry` from `src/types/index.ts`. -/
structure ChangeLogEntry where
  timestamp : String
  agent : String
  action : String
  files : List String
  description : String
deriving DecidableEq, Repr

/-- `createChangeLogEntry` from `helpers.ts`; the wall-clock timestamp is a
parameter. -/
def createChangeLogEntry (ts agent action : String) (files : List String)
    (description : String) : ChangeLogEntry :=
  { timestamp := ts, agent := agent, action := action, files := files,
    description := description }

/-- The execution plan built by `MasterTA.createPlan`. -/
structure TaskPlan where
  taskType : TaskType
  agents : List String
  parallel : Bool
deriving DecidableEq, Repr

/-- `MasterTA.createPlan`: classify, then pick handlers; for `mixed`,
re-scan the raw text with the reduced keyword tests of the `switch`
branch and fall back to the default pair when nothing matches. -/
def createPlan (task : String) : TaskPlan :=
  let taskType := classifyTask task
  match taskType with
  | .latex => { taskType := .latex, agents := ["LatexTA"], parallel := false }
  | .problemset => { taskType := .problemset, agents := ["ProblemSetTA"], parallel := false }
  | .research => { taskType := .research, agents := ["ResearchTA"], parallel := false }
  | .rcode => { taskType := .rcode, agents := ["RCodeTA"], parallel := false }
  | .mixed =>
    let lower := (strToLower task)
    let a1 := if strIncludes lower "latex" || strIncludes lower "slide" then ["LatexTA"] else []
    let a2 := if strIncludes lower "problem" || strIncludes lower "exercise" then ["ProblemSetTA"] else []
    let a3 := if strIncludes lower "research" || strIncludes lower "literature" then ["ResearchTA"] else []
    let a4 := if strIncludes lower "r code" || strIncludes lower "script" then ["RCodeTA"] else []
    let agents := a1 ++ a2 ++ a3 ++ a4
    let agents := if agents.isEmpty then ["ProblemSetTA", "LatexTA"] else agents
    { taskType := .mixed, agents := agents, parallel := decide (agents.length > 1) }

/-- The fallback condition of `createPlan`'s `mixed` branch: none of the
eight re-scan keyword tests hit the lowered task text. -/
def rescanFallback (task : String) : Bool :=
  !((strIncludes (strToLower task) "latex" || strIncludes (strToLower task) "slide") ||
    (strIncludes (strToLower task) "problem" || strIncludes (strToLower task) "exercise") ||
    (strIncludes (strToLower task) "research" || strIncludes (strToLower task) "literature") ||
    (strIncludes (strToLower task) "r code" || strIncludes (strToLower task) "script"))

/-- The change-log side effect of `MasterTA.executeSubAgent` once the
sub-agent's result is in hand: on success append one entry built from
`result.files || []` and the truncated task text; on failure leave the
log unchanged. -/
def executeSubAgentLog (log : List ChangeLogEntry) (ts agentName task : String)
    (result : SubAgentResult) : List ChangeLogEntry :=
  if result.success then
    log ++ [createChangeLogEntry ts agentName "execute" (result.files.getD [])
      ("Completed task: " ++ task.take 60 ++ (if task.length > 60 then "..." else ""))]
  else
    log

/-- `MasterTA.verify`, with the filesystem's `exists` as a parameter:
notation-consistency issues, a warning when no files were produced, and
a missing-file issue per nonexistent file; `passed` is computed from the
final issue list. -/
def verify (s : CourseState) (fileExistsB : String → Bool)
    (files : List String) : VerificationResult :=
  let notationCheck := verifyNotationConsistency s
  let issues := if notationCheck.consistent then [] else notationCheck.conflicts
  let warnings := if files.length == 0 then ["No files were generated"] else []
  let issues := issues ++
    (files.filter (fun f => !(fileExistsB f))).map (fun f => "File not found: " ++ f)
  { passed := issues.length == 0, issues := issues, warnings := warnings }

/-! ### Helper lemmas -/

theorem consistent_eq_true_iff (s : CourseState) :
    (verifyNotationConsistency s).consistent = true ↔
      (verifyNotationConsistency s).conflicts = [] := by
  simp [verifyNotationConsistency, List.length_eq_zero]

theorem mapSet_of_not_mem (m : List (Nat × LectureMetadata)) (k : Nat)
    (v : LectureMetadata) (h : k ∉ m.map Prod.fst) : mapSet m k v = m ++ [(k, v)] := by
  have hany : m.any (fun p => p.1 == k) = false := by
    rw [List.any_eq_false]
    intro p hp
    simp only [beq_iff_eq]
    intro hk
    exact h (hk ▸ List.mem_map_of_mem Prod.fst hp)
  simp [mapSet, hany]

theorem foldl_mapSet_eq_append (l m : List (Nat × LectureMetadata))
    (h : ((m ++ l).map Prod.fst).Nodup) :
    l.foldl (fun acc p => mapSet acc p.1 p.2) m = m ++ l := by
  induction l generalizing m with
  | nil => simp
  | cons p t ih =>
    obtain ⟨k, v⟩ := p
    have hmap : ((m.map Prod.fst) ++ (k :: t.map Prod.fst)).Nodup := by
      simpa using h
    obtain ⟨-, -, hdisj⟩ := List.nodup_append.mp hmap
    have hk : k ∉ m.map Prod.fst := fun hmem => hdisj hmem (List.mem_cons_self _ _)
    have h' : (((m ++ [(k, v)]) ++ t).map Prod.fst).Nodup := by
      simpa [List.append_assoc] using h
    calc ((k, v) :: t).foldl (fun acc p => mapSet acc p.1 p.2) m
        = t.foldl (fun acc p => mapSet acc p.1 p.2) (mapSet m k v) := by
          rw [List.foldl_cons]
      _ = t.foldl (fun acc p => mapSet acc p.1 p.2) (m ++ [(k, v)]) := by
          rw [mapSet_of_not_mem m k v hk]
      _ = (m ++ [(k, v)]) ++ t := ih (m ++ [(k, v)]) h'
      _ = m ++ (k, v) :: t := by simp

theorem mapFromPairs_self (l : List (Nat × LectureMetadata))
    (h : (l.map Prod.fst).Nodup) : mapFromPairs l = l := by
  have := foldl_mapSet_eq_append l [] (by simpa using h)
  simpa [mapFromPairs] using this

theorem map_symbol_updateNotationEntry (sym mean : String) (ctx : Option String)
    (l : List NotationEntry) :
    (updateNotationEntry sym mean ctx l).map (fun e => e.symbol) =
      l.map (fun e => e.symbol) := by
  induction l with
  | nil => rfl
  | cons e t ih =>
    cases h : e.symbol == sym <;> simp [updateNotationEntry, h, ih]

theorem updated_mem_updateNotationEntry (sym mean : String) (ctx : Option String)
    (l : List NotationEntry) (hnd : (l.map (fun e => e.symbol)).Nodup)
    (e : NotationEntry) (he : e ∈ l) (hs : e.symbol = sym) :
    { e with meaning := mean,
             context := match ctx with
                        | some c => if c == "" then e.context else some c
                        | none => e.context } ∈ updateNotationEntry sym mean ctx l := by
  induction l with
  | nil => cases he
  | cons f t ih =>
    rcases List.mem_cons.mp he with rfl | het
    · have hf : (e.symbol == sym) = true := by simp [hs]
      simp [updateNotationEntry, hf]
    · cases hf : f.symbol == sym
      · have hnd' : (t.map (fun e => e.symbol)).Nodup := hnd.of_cons
        simp only [updateNotationEntry, hf]
        exact List.mem_cons_of_mem _ (ih hnd' het)
      · exfalso
        have hf' : f.symbol = sym := by simpa using hf
        have hmem : sym ∈ t.map (fun e => e.symbol) :=
          hs ▸ List.mem_map_of_mem (fun e => e.symbol) het
        have : f.symbol ∉ t.map (fun e => e.symbol) :=
          (List.nodup_cons.mp hnd).1
        exact this (hf' ▸ hmem)

theorem mem_firstOccAux (x : String) (l : List String) :
    ∀ seen : List String, x ∈ firstOccAux seen l ↔ x ∈ l ∧ x ∉ seen := by
  induction l with
  | nil => intro seen; simp [firstOccAux]
  | cons a t ih =>
    intro seen
    cases h : seen.contains a with
    | true =>
      have ha : a ∈ seen := by simpa using h
      rw [firstOccAux]
      simp only [h, if_true]
      rw [ih seen]
      constructor
      · rintro ⟨hx, hns⟩
        exact ⟨List.mem_cons_of_mem _ hx, hns⟩
      · rintro ⟨hx, hns⟩
        rcases List.mem_cons.mp hx with rfl | hx
        · exact absurd ha hns
        · exact ⟨hx, hns⟩
    | false =>
      have ha : a ∉ seen := by simpa using h
      rw [firstOccAux]
      simp only [h, if_false]
      constructor
      · intro hx
        rcases List.mem_cons.mp hx with rfl | hx
        · exact ⟨List.mem_cons_self _ _, ha⟩
        · obtain ⟨hxt, hxs⟩ := (ih (a :: seen)).mp hx
          exact ⟨List.mem_cons_of_mem _ hxt,
            fun hc => hxs (List.mem_cons_of_mem _ hc)⟩
      · rintro ⟨hx, hns⟩
        rcases List.mem_cons.mp hx with rfl | hx
        · exact List.mem_cons_self _ _
        · by_cases hxa : x = a
          · subst hxa; exact List.mem_cons_self _ _
          · refine List.mem_cons_of_mem _ ((ih (a :: seen)).mpr ⟨hx, ?_⟩)
            intro hc
            rcases List.mem_cons.mp hc with h' | h'
            · exact hxa h'
            · exact hns h'

theorem nodup_firstOccAux (l : List String) :
    ∀ seen : List String, (firstOccAux seen l).Nodup := by
  induction l with
  | nil => intro seen; simp [firstOccAux]
  | cons a t ih =>
    intro seen
    cases h : seen.contains a with
    | true =>
      rw [firstOccAux]
      simp only [h, if_true]
      exact ih seen
    | false =>
      rw [firstOccAux]
      simp only [h, if_false]
      refine List.nodup_cons.mpr ⟨?_, ih (a :: seen)⟩
      intro hc
      exact ((mem_firstOccAux a t (a :: seen)).mp hc).2 (List.mem_cons_self _ _)

theorem mem_firstOcc (x : String) (l : List String) : x ∈ firstOcc l ↔ x ∈ l := by
  simp [firstOcc, mem_firstOccAux]

theorem nodup_firstOcc (l : List String) : (firstOcc l).Nodup :=
  nodup_firstOccAux l []

theorem firstOcc_length_le_one_iff (l : List String) :
    (firstOcc l).length ≤ 1 ↔ ∀ a ∈ l, ∀ b ∈ l, a = b := by
  constructor
  · intro h a ha b hb
    have ha' := (mem_firstOcc a l).mpr ha
    have hb' := (mem_firstOcc b l).mpr hb
    cases hF : firstOcc l with
    | nil => rw [hF] at ha'; cases ha'
    | cons x xs =>
      rw [hF] at ha' hb' h
      have hxs : xs = [] := by
        cases xs with
        | nil => rfl
        | cons y ys => simp at h
      subst hxs
      simp only [List.mem_singleton] at ha' hb'
      rw [ha', hb']
  · intro h
    cases hF : firstOcc l with
    | nil => simp
    | cons x xs =>
      cases xs with
      | nil => simp
      | cons y ys =>
        exfalso
        have hx : x ∈ l :=
          (mem_firstOcc x l).mp (by rw [hF]; exact List.mem_cons_self _ _)
        have hy : y ∈ l :=
          (mem_firstOcc y l).mp
            (by rw [hF]; exact List.mem_cons_of_mem _ (List.mem_cons_self _ _))
        have hnd := nodup_firstOcc l
        rw [hF] at hnd
        have hxy : x ≠ y := by
          intro he
          exact (List.nodup_cons.mp hnd).1 (he ▸ List.mem_cons_self _ _)
        exact hxy (h x hx y hy)

/-! ### Claim theorems -/

/-- C5: `verify` reports `passed = true` exactly when its issue list is
empty; `passed` is computed from issues alone, so the warnings list never
influences it. -/
theorem C5_passed_iff_no_issues (s : CourseState) (fileExistsB : String → Bool)
    (files : List String) :
    (verify s fileExistsB files).passed = true ↔
      (verify s fileExistsB files).issues = [] := by
  simp [verify, List.length_eq_zero]

/-- C9: with an empty integrated file list, `verify` emits exactly the one
no-files warning, the file-existence check contributes no issues (the issue
list is exactly the notation conflicts), and `passed` stays true when the
notation registry is consistent. -/
theorem C9_verify_empty_files (s : CourseState) (fileExistsB : String → Bool) :
    (verify s fileExistsB []).warnings = ["No files were generated"] ∧
    (verify s fileExistsB []).issues = (verifyNotationConsistency s).conflicts ∧
    ((verifyNotationConsistency s).consistent = true →
      (verify s fileExistsB []).passed = true) := by
  refine ⟨rfl, ?_, ?_⟩
  · by_cases hc : (verifyNotationConsistency s).consistent = true
    · have h0 := (consistent_eq_true_iff s).mp hc
      simp [verify, hc, h0]
    · simp [verify, hc]
  · intro hc
    have h0 := (consistent_eq_true_iff s).mp hc
    simp [verify, hc, h0]

/-- C9 witness: a concrete fresh course state with no produced files passes
verification with exactly the no-files warning. -/
theorem C9_verify_empty_files_witness :
    (verify (CourseState.new "Econ101" Language.en) (fun _ => false) []).warnings =
      ["No files were generated"] ∧
    (verify (CourseState.new "Econ101" Language.en) (fun _ => false) []).passed = true :=
  ⟨(C9_verify_empty_files (CourseState.new "Econ101" Language.en) (fun _ => false)).1,
   (C9_verify_empty_files (CourseState.new "Econ101" Language.en) (fun _ => false)).2.2 rfl⟩

/-- C7 counterexample: `registerAssumption` performs no validation, so the
call `registerAssumption("rational agents", 1, validFrom := 5, validTo := 3)`
on a fresh state stores an assumption whose range violates
`validFrom ≤ validTo`. -/
theorem C7_counterexample :
    ((registerAssumption (CourseState.new "Econ101" Language.en)
        "rational agents" 1 5 (some 3)).1.assumptions =
      [{ id := "assumption_1", description := "rational agents", introducedIn := 1,
         validFrom := 5, validTo := some 3 }]) ∧
    ((registerAssumption (CourseState.new "Econ101" Language.en)
        "rational agents" 1 5 (some 3)).1.assumptions.all rangeOk) = false :=
  ⟨rfl, rfl⟩

/-- C7 (amended): the assumption collection is append-only —
`registerAssumption` appends exactly one record built from its arguments and
the other state operations leave the collection untouched — and the range
invariant `validFrom ≤ validTo` is preserved exactly when the call's own
arguments satisfy it, since the code never checks the range itself. -/
theorem C7_assumptions_append_only (s : CourseState) (d : String)
    (i vf : Nat) (vt : Option Nat) :
    ((registerAssumption s d i vf vt).1.assumptions =
      s.assumptions ++
        [{ id := "assumption_" ++ toString (s.assumptions.length + 1),
           description := d, introducedIn := i, validFrom := vf, validTo := vt }]) ∧
    (∀ sym mean ln ctx, (registerNotation s sym mean ln ctx).assumptions = s.assumptions) ∧
    (∀ md, (updateLecture s md).assumptions = s.assumptions) ∧
    ((∀ a ∈ s.assumptions, rangeOk a = true) →
      (∀ t, vt = some t → vf ≤ t) →
      ∀ a ∈ (registerAssumption s d i vf vt).1.assumptions, rangeOk a = true) := by
  refine ⟨rfl, ?_, fun md => rfl, ?_⟩
  · intro sym mean ln ctx
    unfold registerNotation
    split <;> rfl
  · intro hall hvt a ha
    simp only [registerAssumption, List.mem_append, List.mem_singleton] at ha
    rcases ha with ha | ha
    · exact hall a ha
    · subst ha
      cases hv : vt with
      | none => simp [rangeOk, hv]
      | some t => simp [rangeOk, hv, hvt t hv]

/-- C7 witness: a concrete valid-range registration on a fresh state keeps
every stored assumption's range invariant. -/
theorem C7_assumptions_append_only_witness :
    ((registerAssumption (CourseState.new "Econ101" Language.en) "a" 1 2 (some 5)).1.assumptions =
      [{ id := "assumption_1", description := "a", introducedIn := 1,
         validFrom := 2, validTo := some 5 }]) ∧
    ∀ a ∈ (registerAssumption (CourseState.new "Econ101" Language.en)
        "a" 1 2 (some 5)).1.assumptions, rangeOk a = true :=
  ⟨(C7_assumptions_append_only (CourseState.new "Econ101" Language.en) "a" 1 2 (some 5)).1,
   (C7_assumptions_append_only (CourseState.new "Econ101" Language.en) "a" 1 2 (some 5)).2.2.2
     (by intro a ha; simp [CourseState.new] at ha)
     (by intro t ht; cases ht; decide)⟩

set_option maxRecDepth 4000 in
/-- C8 counterexample: a successful sub-agent result with an empty produced
file list still appends one change-log entry (holding an empty file list),
contradicting the claim that no entry is appended in that case. -/
theorem C8_counterexample :
    executeSubAgentLog [] "2025-01-01T00:00:00.000Z" "LatexTA" "polish"
      { agentType := "LatexTA", success := true, output := "ok",
        files := some [], errors := none } =
      [{ timestamp := "2025-01-01T00:00:00.000Z", agent := "LatexTA",
         action := "execute", files := [],
         description := "Completed task: polish" }] := by
  decide

/-- C8 (amended): during delegation exactly one change-log entry is appended
for every successful sub-agent result — whether or not it produced files,
the entry's file list being `result.files || []` — and no entry is appended
for a failed result. -/
theorem C8_changelog_append_rule (log : List ChangeLogEntry)
    (ts agentName task : String) (r : SubAgentResult) :
    (r.success = true → ∃ e : ChangeLogEntry,
      executeSubAgentLog log ts agentName task r = log ++ [e] ∧
      e.agent = agentName ∧ e.action = "execute" ∧ e.files = r.files.getD []) ∧
    (r.success = false → executeSubAgentLog log ts agentName task r = log) := by
  constructor
  · intro h
    refine ⟨createChangeLogEntry ts agentName "execute" (r.files.getD [])
      ("Completed task: " ++ task.take 60 ++ (if task.length > 60 then "..." else "")),
      ?_, rfl, rfl, rfl⟩
    simp [executeSubAgentLog, h]
  · intro h
    simp [executeSubAgentLog, h]

/-- C8 witness: a concrete successful result with no file list yields exactly
one appended entry with an empty file list. -/
theorem C8_changelog_append_rule_witness :
    ∃ e : ChangeLogEntry,
      executeSubAgentLog [] "t0" "RCodeTA" "simulate"
        { agentType := "RCodeTA", success := true, output := "",
          files := none, errors := none } = [] ++ [e] ∧
      e.agent = "RCodeTA" ∧ e.action = "execute" ∧
      e.files = (Option.getD (α := List String) none []) :=
  (C8_changelog_append_rule [] "t0" "RCodeTA" "simulate"
    { agentType := "RCodeTA", success := true, output := "",
      files := none, errors := none }).1 rfl

/-- C1 counterexample: registering symbol `Q` as `quantity` (lecture 1) and
then as `quality` (lecture 4) overwrites the entry in place, so the
notation-consistency check run by `verify` reports no issue at all for `Q`,
not the one conflict issue the claim requires. -/
theorem C1_counterexample :
    ((registerNotation
        (registerNotation (CourseState.new "Micro" Language.en) "Q" "quantity" 1 none)
        "Q" "quality" 4 none).notationRegistry =
      [{ symbol := "Q", meaning := "quality", introducedIn := 1, context := none }]) ∧
    (verifyNotationConsistency
      (registerNotation
        (registerNotation (CourseState.new "Micro" Language.en) "Q" "quantity" 1 none)
        "Q" "quality" 4 none)).conflicts = [] ∧
    (verify
      (registerNotation
        (registerNotation (CourseState.new "Micro" Language.en) "Q" "quantity" 1 none)
        "Q" "quality" 4 none)
      (fun _ => true) ["slides.tex"]).issues = [] :=
  ⟨rfl, rfl, rfl⟩

/-- C2: `classifyTask` is a total, deterministic, case-insensitive keyword
match — texts with equal lowerings classify alike, a text matched by exactly
one of the four keyword families gets that family's category, and `mixed`
is returned exactly when zero or at least two families match. -/
theorem C2_classifyTask_keyword_rule :
    (∀ t1 t2 : String, strToLower t1 = strToLower t2 → classifyTask t1 = classifyTask t2) ∧
    ∀ text : String,
      ((familyMatches (strToLower text) latexKeywords = true ∧
        familyMatches (strToLower text) problemsetKeywords = false ∧
        familyMatches (strToLower text) researchKeywords = false ∧
        familyMatches (strToLower text) rcodeKeywords = false) →
        classifyTask text = TaskType.latex) ∧
      ((familyMatches (strToLower text) latexKeywords = false ∧
        familyMatches (strToLower text) problemsetKeywords = true ∧
        familyMatches (strToLower text) researchKeywords = false ∧
        familyMatches (strToLower text) rcodeKeywords = false) →
        classifyTask text = TaskType.problemset) ∧
      ((familyMatches (strToLower text) latexKeywords = false ∧
        familyMatches (strToLower text) problemsetKeywords = false ∧
        familyMatches (strToLower text) researchKeywords = true ∧
        familyMatches (strToLower text) rcodeKeywords = false) →
        classifyTask text = TaskType.research) ∧
      ((familyMatches (strToLower text) latexKeywords = false ∧
        familyMatches (strToLower text) problemsetKeywords = false ∧
        familyMatches (strToLower text) researchKeywords = false ∧
        familyMatches (strToLower text) rcodeKeywords = true) →
        classifyTask text = TaskType.rcode) ∧
      (classifyTask text = TaskType.mixed ↔
        ¬((familyMatches (strToLower text) latexKeywords = true ∧
           familyMatches (strToLower text) problemsetKeywords = false ∧
           familyMatches (strToLower text) researchKeywords = false ∧
           familyMatches (strToLower text) rcodeKeywords = false) ∨
          (familyMatches (strToLower text) latexKeywords = false ∧
           familyMatches (strToLower text) problemsetKeywords = true ∧
           familyMatches (strToLower text) researchKeywords = false ∧
           familyMatches (strToLower text) rcodeKeywords = false) ∨
          (familyMatches (strToLower text) latexKeywords = false ∧
           familyMatches (strToLower text) problemsetKeywords = false ∧
           familyMatches (strToLower text) researchKeywords = true ∧
           familyMatches (strToLower text) rcodeKeywords = false) ∨
          (familyMatches (strToLower text) latexKeywords = false ∧
           familyMatches (strToLower text) problemsetKeywords = false ∧
           familyMatches (strToLower text) researchKeywords = false ∧
           familyMatches (strToLower text) rcodeKeywords = true))) := by
  constructor
  · intro t1 t2 h
    simp only [classifyTask, h]
  · intro text
    cases hL : familyMatches (strToLower text) latexKeywords <;>
      cases hP : familyMatches (strToLower text) problemsetKeywords <;>
        cases hR : familyMatches (strToLower text) researchKeywords <;>
          cases hC : familyMatches (strToLower text) rcodeKeywords <;>
            simp [classifyTask, hL, hP, hR, hC]

/-- C2 witness: two casings of the same text classify alike, and a text
hitting only the latex family is classified `latex`. -/
theorem C2_classifyTask_keyword_rule_witness :
    classifyTask "Fix the LaTeX Slides" = classifyTask "fix the latex slides" ∧
    classifyTask "fix the latex slides" = TaskType.latex :=
  ⟨C2_classifyTask_keyword_rule.1 "Fix the LaTeX Slides" "fix the latex slides" (by decide),
   ((C2_classifyTask_keyword_rule.2 "fix the latex slides").1
     ⟨by decide, by decide, by decide, by decide⟩)⟩

/-- C3: `createPlan` never returns an empty handler set, and on a `mixed`
classification whose re-scan hits none of the keyword tests the plan is
exactly the fixed default pair of the problem-set and document-polish
handlers. -/
theorem C3_plan_never_empty (task : String) :
    (createPlan task).agents ≠ [] ∧
    ((classifyTask task = TaskType.mixed ∧ rescanFallback task = true) →
      (createPlan task).agents = ["ProblemSetTA", "LatexTA"]) := by
  constructor
  · cases h : classifyTask task <;> simp [createPlan, h]
    cases h1 : strIncludes (strToLower task) "latex" <;>
      cases h1' : strIncludes (strToLower task) "slide" <;>
        cases h2 : strIncludes (strToLower task) "problem" <;>
          cases h2' : strIncludes (strToLower task) "exercise" <;>
            cases h3 : strIncludes (strToLower task) "research" <;>
              cases h3' : strIncludes (strToLower task) "literature" <;>
                cases h4 : strIncludes (strToLower task) "r code" <;>
                  cases h4' : strIncludes (strToLower task) "script" <;>
                    simp [h1, h1', h2, h2', h3, h3', h4, h4']
  · rintro ⟨hm, hf⟩
    simp only [rescanFallback, Bool.not_eq_true', Bool.or_eq_false_iff] at hf
    obtain ⟨⟨⟨h1, h2⟩, h3⟩, h4⟩ := hf
    simp [createPlan, hm, h1, h2, h3, h4]

/-- C3 witness: a keyword-free task classifies as `mixed` and receives the
default pair plan. -/
theorem C3_plan_never_empty_witness :
    (createPlan "hello there").agents ≠ [] ∧
    (createPlan "hello there").agents = ["ProblemSetTA", "LatexTA"] :=
  ⟨(C3_plan_never_empty "hello there").1,
   (C3_plan_never_empty "hello there").2 ⟨by decide, by decide⟩⟩

/-- C4 counterexample: the task "homework research" is classified `mixed`
and its text contains the problem-set family keyword "homework", yet the
plan's re-scan (which tests only "problem"/"exercise" for that handler)
returns only the research handler — the problem-set handler is missing. -/
theorem C4_counterexample :
    classifyTask "homework research" = TaskType.mixed ∧
    familyMatches (strToLower "homework research") problemsetKeywords = true ∧
    (createPlan "homework research").agents = ["ResearchTA"] ∧
    "ProblemSetTA" ∉ (createPlan "homework research").agents := by
  refine ⟨by decide, by decide, by decide, by decide⟩

/-- C4 (amended): for a `mixed` classification the plan re-scans the raw
text with a reduced keyword list — latex/slide, problem/exercise,
research/literature, "r code"/script — not the classifier's full families;
each handler is included exactly when its reduced pair hits (the
document-polish and problem-set handlers also enter through the fallback
when none of the eight tests hit). -/
theorem C4_mixed_rescan_reduced_keywords (task : String)
    (h : classifyTask task = TaskType.mixed) :
    ("LatexTA" ∈ (createPlan task).agents ↔
      ((strIncludes (strToLower task) "latex" = true ∨ strIncludes (strToLower task) "slide" = true) ∨
        rescanFallback task = true)) ∧
    ("ProblemSetTA" ∈ (createPlan task).agents ↔
      ((strIncludes (strToLower task) "problem" = true ∨ strIncludes (strToLower task) "exercise" = true) ∨
        rescanFallback task = true)) ∧
    ("ResearchTA" ∈ (createPlan task).agents ↔
      (strIncludes (strToLower task) "research" = true ∨ strIncludes (strToLower task) "literature" = true)) ∧
    ("RCodeTA" ∈ (createPlan task).agents ↔
      (strIncludes (strToLower task) "r code" = true ∨ strIncludes (strToLower task) "script" = true)) := by
  cases h1 : strIncludes (strToLower task) "latex" <;>
    cases h1' : strIncludes (strToLower task) "slide" <;>
      cases h2 : strIncludes (strToLower task) "problem" <;>
        cases h2' : strIncludes (strToLower task) "exercise" <;>
          cases h3 : strIncludes (strToLower task) "research" <;>
            cases h3' : strIncludes (strToLower task) "literature" <;>
              cases h4 : strIncludes (strToLower task) "r code" <;>
                cases h4' : strIncludes (strToLower task) "script" <;>
                  simp [createPlan, rescanFallback, h, h1, h1', h2, h2', h3, h3', h4, h4']

/-- C4 witness: for the `mixed` task "homework research" the research
handler's membership in the plan tracks exactly the reduced
research/literature tests. -/
theorem C4_mixed_rescan_reduced_keywords_witness :
    "ResearchTA" ∈ (createPlan "homework research").agents ↔
      (strIncludes (strToLower "homework research") "research" = true ∨
       strIncludes (strToLower "homework research") "literature" = true) :=
  (C4_mixed_rescan_reduced_keywords "homework research" (by decide)).2.2.1

/-- C6: saving a course state with `toJSON` and loading the result with
`fromJSON` preserves the course name, language, notation registry,
assumption list, and — key by key — the lecture mapping (the JS `Map`
cannot hold duplicate keys, which the no-duplicate hypothesis reflects). -/
theorem C6_save_load_roundtrip (s : CourseState) :
    (fromJSON (toJSON s)).courseName = s.courseName ∧
    (fromJSON (toJSON s)).language = s.language ∧
    (fromJSON (toJSON s)).syllabus = s.syllabus ∧
    (fromJSON (toJSON s)).learningObjectives = s.learningObjectives ∧
    (fromJSON (toJSON s)).notationRegistry = s.notationRegistry ∧
    (fromJSON (toJSON s)).assumptions = s.assumptions ∧
    ((s.lectures.map Prod.fst).Nodup →
      ∀ k : Nat, (fromJSON (toJSON s)).lectures.lookup k = s.lectures.lookup k) := by
  refine ⟨rfl, rfl, rfl, rfl, rfl, rfl, ?_⟩
  intro h k
  have hl : (fromJSON (toJSON s)).lectures = s.lectures := by
    simp only [fromJSON, toJSON]
    exact mapFromPairs_self s.lectures h
  rw [hl]

/-- C6 witness: a concrete two-lecture state round-trips; looking up
lecture 2 after load gives the stored metadata. -/
theorem C6_save_load_roundtrip_witness :
    (((CourseState.mk "Econ101" Language.de "week plan" []
        [{ symbol := "Q", meaning := "quantity", introducedIn := 1, context := none }]
        []
        [(1, ⟨1, "Intro", [], [], [], [], []⟩), (2, ⟨2, "Supply", [], [], [], [], []⟩)]).lectures.map
          Prod.fst).Nodup) ∧
    (fromJSON (toJSON (CourseState.mk "Econ101" Language.de "week plan" []
        [{ symbol := "Q", meaning := "quantity", introducedIn := 1, context := none }]
        []
        [(1, ⟨1, "Intro", [], [], [], [], []⟩),
         (2, ⟨2, "Supply", [], [], [], [], []⟩)]))).lectures.lookup 2 =
      (CourseState.mk "Econ101" Language.de "week plan" []
        [{ symbol := "Q", meaning := "quantity", introducedIn := 1, context := none }]
        []
        [(1, ⟨1, "Intro", [], [], [], [], []⟩),
         (2, ⟨2, "Supply", [], [], [], [], []⟩)]).lectures.lookup 2 :=
  ⟨by decide,
   (C6_save_load_roundtrip (CourseState.mk "Econ101" Language.de "week plan" []
        [{ symbol := "Q", meaning := "quantity", introducedIn := 1, context := none }]
        []
        [(1, ⟨1, "Intro", [], [], [], [], []⟩),
         (2, ⟨2, "Supply", [], [], [], [], []⟩)])).2.2.2.2.2.2 (by decide) 2⟩

/-- C10: a fresh course state has an empty notation registry, and
`registerNotation` preserves "at most one entry per symbol"; re-registering
an existing symbol keeps the entry's original `introducedIn` while updating
its meaning (and its context only when a non-empty context is given). -/
theorem C10_registry_unique_symbols :
    (∀ name lang, (CourseState.new name lang).notationRegistry = []) ∧
    ∀ (s : CourseState) (sym mean : String) (ln : Nat) (ctx : Option String),
      (s.notationRegistry.map (fun e => e.symbol)).Nodup →
        (((registerNotation s sym mean ln ctx).notationRegistry.map
            (fun e => e.symbol)).Nodup ∧
         ∀ e ∈ s.notationRegistry, e.symbol = sym →
           { symbol := e.symbol, meaning := mean, introducedIn := e.introducedIn,
             context := match ctx with
                        | some c => if c == "" then e.context else some c
                        | none => e.context } ∈
             (registerNotation s sym mean ln ctx).notationRegistry) := by
  refine ⟨fun name lang => rfl, ?_⟩
  intro s sym mean ln ctx hnd
  constructor
  · cases hany : s.notationRegistry.any (fun n => n.symbol == sym)
    · have hsym : sym ∉ s.notationRegistry.map (fun e => e.symbol) := by
        intro hmem
        rcases List.mem_map.mp hmem with ⟨e, he, hes⟩
        have : s.notationRegistry.any (fun n => n.symbol == sym) = true :=
          List.any_eq_true.mpr ⟨e, he, by simp [hes]⟩
        simp [this] at hany
      simp only [registerNotation, hany, Bool.false_eq_true, if_false, List.map_append]
      refine List.Nodup.append hnd (by simp) ?_
      intro a ha hb
      simp only [List.map_cons, List.map_nil, List.mem_singleton] at hb
      exact hsym (hb ▸ ha)
    · simp only [registerNotation, hany, if_true, map_symbol_updateNotationEntry]
      exact hnd
  · intro e he hs
    have hany : s.notationRegistry.any (fun n => n.symbol == sym) = true :=
      List.any_eq_true.mpr ⟨e, he, by simp [hs]⟩
    simp only [registerNotation, hany, if_true]
    exact updated_mem_updateNotationEntry sym mean ctx s.notationRegistry hnd e he hs

/-- C10 witness: on a one-entry registry holding `Q ↦ quantity` (lecture 1),
re-registering `Q ↦ quality` at lecture 4 keeps unique symbols and yields an
entry for `Q` with the new meaning but the original lecture number. -/
theorem C10_registry_unique_symbols_witness :
    (((registerNotation
        { CourseState.new "Micro" Language.en with
          notationRegistry :=
            [{ symbol := "Q", meaning := "quantity", introducedIn := 1, context := none }] }
        "Q" "quality" 4 none).notationRegistry.map (fun e => e.symbol)).Nodup) ∧
    { symbol := "Q", meaning := "quality", introducedIn := 1, context := none } ∈
      (registerNotation
        { CourseState.new "Micro" Language.en with
          notationRegistry :=
            [{ symbol := "Q", meaning := "quantity", introducedIn := 1, context := none }] }
        "Q" "quality" 4 none).notationRegistry := by
  have h := (C10_registry_unique_symbols.2
    { CourseState.new "Micro" Language.en with
      notationRegistry :=
        [{ symbol := "Q", meaning := "quantity", introducedIn := 1, context := none }] }
    "Q" "quality" 4 none) (by decide)
  exact ⟨h.1, h.2 { symbol := "Q", meaning := "quantity", introducedIn := 1, context := none }
    (by decide) rfl⟩

/-- C1 (amended): `registerNotation` overwrites the meaning in place, so the
Q scenario leaves a single registry entry `{Q, quality, 1}` and no conflict;
in general the consistency check passes exactly when no two entries of the
current registry give the same symbol different meanings — overwritten
historical meanings are not retained and cannot be flagged. -/
theorem C1_notation_check_current_registry :
    ((registerNotation
        (registerNotation (CourseState.new "Micro" Language.en) "Q" "quantity" 1 none)
        "Q" "quality" 4 none).notationRegistry =
      [{ symbol := "Q", meaning := "quality", introducedIn := 1, context := none }]) ∧
    ∀ s : CourseState,
      ((verifyNotationConsistency s).consistent = true ↔
        ∀ e1 ∈ s.notationRegistry, ∀ e2 ∈ s.notationRegistry,
          e1.symbol = e2.symbol → e1.meaning = e2.meaning) := by
  refine ⟨rfl, ?_⟩
  intro s
  rw [consistent_eq_true_iff s]
  have hconf : (verifyNotationConsistency s).conflicts = [] ↔
      ∀ sym ∈ firstOcc (s.notationRegistry.map (fun e => e.symbol)),
        (meaningsOf s.notationRegistry sym).length ≤ 1 := by
    simp only [verifyNotationConsistency, List.map_eq_nil_iff, List.filter_eq_nil_iff,
      decide_eq_true_eq, Nat.not_lt]
  rw [hconf]
  constructor
  · intro H e1 he1 e2 he2 hsym
    have hs1 : e1.symbol ∈ firstOcc (s.notationRegistry.map (fun e => e.symbol)) :=
      (mem_firstOcc _ _).mpr (List.mem_map_of_mem _ he1)
    have hlen := H e1.symbol hs1
    rw [meaningsOf, firstOcc_length_le_one_iff] at hlen
    refine hlen e1.meaning ?_ e2.meaning ?_
    · exact List.mem_map_of_mem _ (List.mem_filter.mpr ⟨he1, by simp⟩)
    · exact List.mem_map_of_mem _ (List.mem_filter.mpr ⟨he2, by simp [hsym]⟩)
  · intro H sym hsym
    rw [meaningsOf, firstOcc_length_le_one_iff]
    intro m1 hm1 m2 hm2
    rcases List.mem_map.mp hm1 with ⟨e1, he1f, rfl⟩
    rcases List.mem_map.mp hm2 with ⟨e2, he2f, rfl⟩
    obtain ⟨he1, hs1⟩ := List.mem_filter.mp he1f
    obtain ⟨he2, hs2⟩ := List.mem_filter.mp he2f
    refine H e1 he1 e2 he2 ?_
    have hs1' : e1.symbol = sym := by simpa using hs1
    have hs2' : e2.symbol = sym := by simpa using hs2
    rw [hs1', hs2']

/-- C1 witness: the characterization instantiated at a registry that does
hold two `Q` entries with different meanings (as a loaded state could). -/
theorem C1_notation_check_current_registry_witness :
    (verifyNotationConsistency
        { CourseState.new "Micro" Language.en with
          notationRegistry :=
            [{ symbol := "Q", meaning := "quantity", introducedIn := 1, context := none },
             { symbol := "Q", meaning := "quality", introducedIn := 4, context := none }] }).consistent =
        true ↔
      ∀ e1 ∈ ({ CourseState.new "Micro" Language.en with
          notationRegistry :=
            [{ symbol := "Q", meaning := "quantity", introducedIn := 1, context := none },
             { symbol := "Q", meaning := "quality", introducedIn := 4,
               context := none }] } : CourseState).notationRegistry,
        ∀ e2 ∈ ({ CourseState.new "Micro" Language.en with
          notationRegistry :=
            [{ symbol := "Q", meaning := "quantity", introducedIn := 1, context := none },
             { symbol := "Q", meaning := "quality", introducedIn := 4,
               context := none }] } : CourseState).notationRegistry,
          e1.symbol = e2.symbol → e1.meaning = e2.meaning :=
  C1_notation_check_current_registry.2
    { CourseState.new "Micro" Language.en with
      notationRegistry :=
        [{ symbol := "Q", meaning := "quantity", introducedIn := 1, context := none },
         { symbol := "Q", meaning := "quality", introducedIn := 4, context := none }] }

end TA
